import Mathlib

/-!
Verification development for the contextual-bandit core of the
`sentinel` assessment backend (`backend/app/rl_assessment.py`).

Python floats are embedded as exact rationals (`ℚ`), Python ints as
`ℤ`/`ℕ`, Python dicts keyed by strings as association lists, and
fallible code as `Except`.  `round(x, n)` is embedded as round-half-even
to `n` decimal digits (`roundTo`), matching Python's `round`
tie-breaking on exactly representable values.
-/

namespace Sentinel

/-- Round a rational to the nearest integer, ties to even
(the rounding mode of Python's builtin `round`). -/
def roundHalfEven (q : ℚ) : ℤ :=
  if q - ⌊q⌋ < 1/2 then ⌊q⌋
  else if 1/2 < q - ⌊q⌋ then ⌊q⌋ + 1
  else if ⌊q⌋ % 2 = 0 then ⌊q⌋ else ⌊q⌋ + 1

/-- Embedding of Python `round(q, n)` for rationals. -/
def roundTo (n : ℕ) (q : ℚ) : ℚ :=
  (roundHalfEven (q * 10 ^ n) : ℚ) / 10 ^ n

theorem roundHalfEven_intCast (m : ℤ) : roundHalfEven (m : ℚ) = m := by
  norm_num [roundHalfEven]

theorem floor_le_roundHalfEven (q : ℚ) : ⌊q⌋ ≤ roundHalfEven q := by
  unfold roundHalfEven
  split_ifs <;> omega

theorem roundHalfEven_le_ceil (q : ℚ) : roundHalfEven q ≤ ⌈q⌉ := by
  unfold roundHalfEven
  split_ifs with h1 h2 h3
  · exact Int.floor_le_ceil q
  all_goals
    have hlt : (⌊q⌋ : ℚ) < q := by
      have hfl : (⌊q⌋ : ℚ) ≤ q := Int.floor_le q
      by_contra hc
      push_neg at hc
      have : q - (⌊q⌋ : ℚ) = 0 := by linarith
      rw [this] at h1
      norm_num at h1
  all_goals
    have := Int.lt_ceil.mpr hlt
    omega

/-- If `q` is exactly representable with `n` decimal digits,
`roundTo n` leaves it unchanged. -/
theorem roundTo_eq_self (n : ℕ) (q : ℚ) (h : (q * 10 ^ n).den = 1) :
    roundTo n q = q := by
  have hnum : ((q * 10 ^ n).num : ℚ) = q * 10 ^ n :=
    (Rat.den_eq_one_iff _).mp h
  have hr : roundHalfEven (q * 10 ^ n) = (q * 10 ^ n).num := by
    conv_lhs => rw [← hnum]
    exact roundHalfEven_intCast _
  unfold roundTo
  rw [hr, hnum]
  have hpow : ((10 : ℚ) ^ n) ≠ 0 := by positivity
  field_simp

/-- Integer bounds survive `roundTo`. -/
theorem roundTo_bounds (n : ℕ) (q : ℚ) (a b : ℤ)
    (ha : (a : ℚ) ≤ q * 10 ^ n) (hb : q * 10 ^ n ≤ (b : ℚ)) :
    (a : ℚ) / 10 ^ n ≤ roundTo n q ∧ roundTo n q ≤ (b : ℚ) / 10 ^ n := by
  have hpow : (0 : ℚ) < (10 : ℚ) ^ n := by positivity
  have h1 : a ≤ ⌊q * 10 ^ n⌋ := Int.le_floor.mpr ha
  have h2 : ⌈q * 10 ^ n⌉ ≤ b := Int.ceil_le.mpr hb
  have h3 : a ≤ roundHalfEven (q * 10 ^ n) :=
    le_trans h1 (floor_le_roundHalfEven _)
  have h4 : roundHalfEven (q * 10 ^ n) ≤ b :=
    le_trans (roundHalfEven_le_ceil _) h2
  constructor
  · unfold roundTo
    gcongr
  · unfold roundTo
    gcongr

/-- Python `str.splitlines` (restricted to the line boundaries
`"\n"`, `"\r"`, `"\r\n"`): no trailing empty line, and the empty
string yields the empty list. -/
def pySplitlinesAux : List Char → List Char → List String
  | [], [] => []
  | [], acc => [String.mk acc.reverse]
  | '\r' :: '\n' :: rest, acc => String.mk acc.reverse :: pySplitlinesAux rest []
  | '\n' :: rest, acc => String.mk acc.reverse :: pySplitlinesAux rest []
  | '\r' :: rest, acc => String.mk acc.reverse :: pySplitlinesAux rest []
  | c :: rest, acc => pySplitlinesAux rest (c :: acc)

def pySplitlines (s : String) : List String :=
  pySplitlinesAux s.toList []

/-- Python `str.startswith` on character lists. -/
def pyStartswith : List Char → List Char → Bool
  | _, [] => true
  | [], _ :: _ => false
  | c :: cs, p :: ps => c = p && pyStartswith cs ps

/-- Python `needle in hay` substring containment on character lists. -/
def containsSubstring (needle : List Char) : List Char → Bool
  | [] => pyStartswith [] needle
  | c :: t => pyStartswith (c :: t) needle || containsSubstring needle t

/-- Python `str.lower` (ASCII). -/
def pyLower (s : String) : String :=
  String.mk (s.toList.map Char.toLower)

/-- Lookup in a Python dict embedded as an association list
(one binding per key). -/
def dictLookup {α : Type} : List (String × α) → String → Option α
  | [], _ => none
  | (k, v) :: t, key => if k = key then some v else dictLookup t key

/-- Python `dict.get(key, default)`. -/
def dictGetD {α : Type} (l : List (String × α)) (key : String) (d : α) : α :=
  (dictLookup l key).getD d

/-- Python `dict[key] = value`: replaces an existing binding in place,
otherwise appends (insertion order preserved). -/
def dictSet {α : Type} : List (String × α) → String → α → List (String × α)
  | [], key, v => [(key, v)]
  | (k, w) :: t, key, v =>
      if k = key then (key, v) :: t else (k, w) :: dictSet t key v

theorem dictLookup_dictSet_ne {α : Type} (l : List (String × α))
    (key b : String) (v : α) (h : b ≠ key) :
    dictLookup (dictSet l key v) b = dictLookup l b := by
  have hkb : ¬key = b := fun hk => h hk.symm
  induction l with
  | nil =>
      simp [dictSet, dictLookup, hkb]
  | cons p t ih =>
      by_cases hk : p.1 = key
      · simp only [dictSet, hk, if_pos rfl, dictLookup]
        rw [if_neg hkb, if_neg (hk ▸ hkb)]
      · simp only [dictSet, if_neg hk, dictLookup]
        by_cases hb : p.1 = b
        · rw [if_pos hb, if_pos hb]
        · rw [if_neg hb, if_neg hb, ih]

theorem dictLookup_dictSet_self {α : Type} (l : List (String × α))
    (key : String) (v : α) :
    dictLookup (dictSet l key v) key = some v := by
  induction l with
  | nil => simp [dictSet, dictLookup]
  | cons p t ih =>
      by_cases hk : p.1 = key
      · simp [dictSet, hk, dictLookup]
      · simp [dictSet, hk, dictLookup, ih]

/-- Constant `ACTION_SPACE` from `rl_assessment.py`. -/
def ACTION_SPACE : List String :=
  ["no_hint", "gentle_hint", "strong_hint", "debug_followup",
   "refactor_followup", "optimization_followup", "edge_case_followup"]

/-- Constant `FEATURE_NAMES` from `rl_assessment.py` (9 features). -/
def FEATURE_NAMES : List String :=
  ["pause_length_norm", "code_cleanliness", "failed_run_rate",
   "hints_used_norm", "difficulty_norm", "err_syntax", "err_runtime",
   "err_edge_case", "err_timeout"]

/-- The four policy facets (`DEFAULT_POLICY_METRICS` keys), as a record. -/
structure PolicyMetrics where
  debugging : ℚ
  refactor : ℚ
  time_factor_optimization : ℚ
  edge_case_resilience : ℚ
deriving DecidableEq

/-- Constant `DEFAULT_POLICY_METRICS`: every facet seeded at 0.25. -/
def DEFAULT_POLICY_METRICS : PolicyMetrics :=
  { debugging := 25/100, refactor := 25/100,
    time_factor_optimization := 25/100, edge_case_resilience := 25/100 }

/-- Constant `DEFAULT_ACTION_WEIGHTS`, in source insertion order:
`[0.1] * 9` for follow-ups, `[0.08] * 9` for hints, `[0.05] * 9`
for `no_hint`. -/
def DEFAULT_ACTION_WEIGHTS : List (String × List ℚ) :=
  [("debug_followup", List.replicate FEATURE_NAMES.length (1/10)),
   ("refactor_followup", List.replicate FEATURE_NAMES.length (1/10)),
   ("optimization_followup", List.replicate FEATURE_NAMES.length (1/10)),
   ("edge_case_followup", List.replicate FEATURE_NAMES.length (1/10)),
   ("gentle_hint", List.replicate FEATURE_NAMES.length (8/100)),
   ("strong_hint", List.replicate FEATURE_NAMES.length (8/100)),
   ("no_hint", List.replicate FEATURE_NAMES.length (5/100))]

/-- The source calls `re.search(r"print\\s*\\(", ln)`.  The raw string
holds the twelve characters `print\\s*\\(`: as a regex, each `\\` is an
escaped backslash, so the final `(` opens a group that is never closed
and `re.compile` raises `re.error` ("missing ), unterminated
subpattern") before any matching can happen.  These are those twelve
characters. -/
def printDebugPattern : List Char :=
  ['p', 'r', 'i', 'n', 't', '\\', '\\', 's', '*', '\\', '\\', '(']

/-- The group-balance / dangling-escape part of regex compilation — the
failure mode relevant to `printDebugPattern`.  Scans the pattern with
the current open-group depth: an escaped pair is skipped, `(` opens a
group, `)` closes one (failing when none is open), and compilation
succeeds only when the pattern ends with no open group and no dangling
escape. -/
def reCompileOk : List Char → Nat → Bool
  | [], depth => depth = 0
  | '\\' :: [], _ => false
  | '\\' :: _ :: rest, depth => reCompileOk rest depth
  | '(' :: rest, depth => reCompileOk rest (depth + 1)
  | ')' :: rest, depth =>
      match depth with
      | 0 => false
      | d + 1 => reCompileOk rest d
  | _ :: rest, depth => reCompileOk rest depth

theorem printDebugPattern_not_compilable :
    reCompileOk printDebugPattern 0 = false := by decide

inductive RegexError where
  | invalidPattern
deriving DecidableEq

/-- Model of `re.search(r"print\\s*\\(", ln)`.  Compilation of the pattern is
modelled by `reCompileOk`; since it fails for `printDebugPattern`
(see `printDebugPattern_not_compilable`), every call raises.  The `ok`
branch is unreachable for this pattern, so no match semantics are
modelled there. -/
def re_search_print_debug (_ln : String) : Except RegexError Bool :=
  if reCompileOk printDebugPattern 0 then
    .ok false
  else
    .error .invalidPattern

/-- Model of `sum(1 for ln in lines if re.search(r"print\\s*\\(", ln))`:
the first `re.search` call propagates the regex error. -/
def countPrintDebug (lines : List String) : Except RegexError ℕ :=
  lines.foldlM
    (fun acc ln => do
      let m ← re_search_print_debug ln
      pure (if m then acc + 1 else acc))
    0

structure CleanlinessResult where
  score : ℚ
  notes : List String
deriving DecidableEq

/-- Embedding of `analyze_code_cleanliness`: lightweight static cleanliness check.
Empty code (no lines) returns score 0.  Otherwise the long-line,
TODO/FIXME and tab-mix fractions are computed, and the debug-print
count is attempted — which raises, because the print regex does not
compile. -/
def analyze_code_cleanliness (code : String) :
    Except RegexError CleanlinessResult :=
  let lines := pySplitlines code
  if lines.isEmpty then
    .ok { score := 0, notes := ["No code provided"] }
  else do
    let long_lines :=
      (lines.filter (fun ln => 120 < ln.length)).length
    let todo_count :=
      (lines.filter (fun ln =>
        containsSubstring (("TODO").toList) ln.toList ||
        containsSubstring (("FIXME").toList) ln.toList)).length
    let tab_mix :=
      (lines.filter (fun ln =>
        ln.toList.contains '\t' &&
        (ln.toList.dropWhile (fun c => c = '\t') ≠ ln.toList : Bool))).length
    let print_debug ← countPrintDebug lines
    let style_penalty : ℚ :=
      (long_lines : ℚ) / (lines.length : ℚ) * (25/100)
      + (todo_count : ℚ) / (max lines.length 1 : ℕ) * (2/10)
      + (tab_mix : ℚ) / (max lines.length 1 : ℕ) * (1/10)
      + (min print_debug 3 : ℕ) * (5/100)
    let score : ℚ := max 0 (1 - style_penalty)
    let notes :=
      (if long_lines ≠ 0 then [toString long_lines ++ " long lines detected"] else [])
      ++ (if todo_count ≠ 0 then [toString todo_count ++ " TODO/FIXME markers present"] else [])
      ++ (if tab_mix ≠ 0 then ["Mixed tabs/spaces found"] else [])
      ++ (if print_debug ≠ 0 then ["Debug print statements present"] else [])
    pure { score := roundTo 3 score, notes := notes }

/-- Embedding of `normalize_pause`: pause length scaled to 0-1 assuming a 60s max
stall — `round(min(pause_seconds / 60.0, 1.0), 3)`. -/
def normalize_pause (pause_seconds : ℚ) : ℚ :=
  roundTo 3 (min (pause_seconds / 60) 1)

/-- Embedding of `normalize_hints_used`: `round(min(count / 3.0, 1.0), 3)`. -/
def normalize_hints_used (count : ℕ) : ℚ :=
  roundTo 3 (min ((count : ℚ) / 3) 1)

/-- Embedding of `normalize_difficulty`: `{"easy": 0.2, "medium": 0.5, "hard": 0.8}`
with default 0.5 (`mapping.get(level, 0.5)`). -/
def normalize_difficulty (level : String) : ℚ :=
  if level = "easy" then 2/10
  else if level = "medium" then 5/10
  else if level = "hard" then 8/10
  else 5/10

/-- Embedding of `categorize_error`: case-insensitive substring classification of an
error message; the empty message (falsy in Python) is `"none"`. -/
def categorize_error (err_msg : String) : String :=
  if err_msg = "" then "none"
  else
    let lower := (pyLower err_msg).toList
    if containsSubstring (("syntax").toList) lower ||
       containsSubstring (("parse").toList) lower then "syntax"
    else if containsSubstring (("timeout").toList) lower then "timeout"
    else if containsSubstring (("assert").toList) lower ||
            containsSubstring (("expect").toList) lower then "edge_case"
    else if containsSubstring (("typeerror").toList) lower ||
            containsSubstring (("valueerror").toList) lower then "runtime"
    else "runtime"

/-- One execution attempt: `passed` and `error` are optional dict keys
(`attempt.get("passed", False)`, `attempt.get("error")`); a missing or
`None` value is `none`. -/
structure Attempt where
  passed : Option Bool
  error : Option String
deriving DecidableEq

/-- Python truthiness of `attempt.get("error")`: a present, non-empty
string. -/
def errTruthy : Option String → Bool
  | some s => !(s = "")
  | none => false

/-- Embedding of `summarize_failures`: failure rate (rounded to 3 decimals) and the
error category of the most recent failing attempt.  An attempt fails
when `passed` is falsy or an error is present. -/
def summarize_failures (execution_attempts : List Attempt) : ℚ × String :=
  if execution_attempts.isEmpty then (0, "none")
  else
    let acc := execution_attempts.foldl
      (fun (acc : ℕ × String) attempt =>
        if !(attempt.passed.getD false) || errTruthy attempt.error then
          (acc.1 + 1, categorize_error (attempt.error.getD ""))
        else acc)
      (0, "none")
    (roundTo 3 ((acc.1 : ℚ) / (max execution_attempts.length 1 : ℕ)), acc.2)

/-- The per-tick context dict built by `build_context_features`. -/
structure Context where
  pause_length : ℚ
  code_cleanliness : ℚ
  code_cleanliness_notes : List String
  fail_rate : ℚ
  error_type : String
  difficulty : String
  hints_used : ℕ
  total_changes : ℤ
deriving DecidableEq

/-- Request model `RLSessionStepRequest`, restricted to the fields the bandit core
reads: `hintsUsed` only via `len(step.hintsUsed)` and
`progressMetrics` only via `progressMetrics.get("totalChanges", 0)`.
`problem`, `language` and `monitoringEvents` feed only the external
LLM prompt and are omitted. -/
structure RLSessionStepRequest where
  sessionId : String
  code : String
  pauseDuration : ℚ
  totalChanges : ℤ
  executionAttempts : List Attempt
  hintsUsed : ℕ
deriving DecidableEq

/-- Embedding of `build_context_features`: normalized context for the current tick.
`analyze_code_cleanliness` raises for non-empty code, and the error
propagates. -/
def build_context_features (step : RLSessionStepRequest)
    (difficulty : String) : Except RegexError Context :=
  match analyze_code_cleanliness step.code with
  | .error e => .error e
  | .ok quality =>
      let fr := summarize_failures step.executionAttempts
      .ok { pause_length := roundTo 2 step.pauseDuration,
            code_cleanliness := quality.score,
            code_cleanliness_notes := quality.notes,
            fail_rate := fr.1,
            error_type := fr.2,
            difficulty := difficulty,
            hints_used := step.hintsUsed,
            total_changes := step.totalChanges }

/-- Embedding of `feature_vector_from_context`: ordered 9-vector aligned to
`FEATURE_NAMES`, with one-hot error indicators. -/
def feature_vector_from_context (context : Context) : List ℚ :=
  [normalize_pause context.pause_length,
   context.code_cleanliness,
   context.fail_rate,
   normalize_hints_used context.hints_used,
   normalize_difficulty context.difficulty,
   if context.error_type = "syntax" then 1 else 0,
   if context.error_type = "runtime" then 1 else 0,
   if context.error_type = "edge_case" then 1 else 0,
   if context.error_type = "timeout" then 1 else 0]

/-- Embedding of `action_bias`: deterministic heuristic nudges layered on top of the
learned weights, accumulated in source order. -/
def action_bias (action : String) (context : Context)
    (policy_metrics : PolicyMetrics) : ℚ :=
  let bias : ℚ := 0
  let bias := if 20 < context.pause_length ∧
      (action = "gentle_hint" ∨ action = "strong_hint")
    then bias + 15/100 else bias
  let bias := if 40 < context.pause_length ∧ action = "strong_hint"
    then bias + 25/100 else bias
  let bias := if 5/10 ≤ context.fail_rate ∧
      (action = "debug_followup" ∨ action = "strong_hint")
    then bias + 2/10 else bias
  let bias := if context.code_cleanliness < 6/10 ∧
      (action = "refactor_followup" ∨ action = "gentle_hint")
    then bias + 18/100 else bias
  let bias := if 35/100 < policy_metrics.time_factor_optimization ∧
      action = "optimization_followup"
    then bias + 12/100 else bias
  let bias := if context.error_type = "edge_case" ∧
      action = "edge_case_followup"
    then bias + 22/100 else bias
  let bias := if 2 ≤ context.hints_used ∧ action = "no_hint"
    then bias + 5/100 else bias
  let bias := if 2 ≤ context.hints_used ∧
      pyStartswith action.toList (("hint").toList)
    then bias - 5/100 else bias
  bias

/-- Variant of `action_bias` with the over-hinting subtraction branch
(`action.startswith("hint")`, source lines 471-472) removed — the
comparison definition for the latent no-op claim. -/
def action_bias_no_hint_penalty (action : String) (context : Context)
    (policy_metrics : PolicyMetrics) : ℚ :=
  let bias : ℚ := 0
  let bias := if 20 < context.pause_length ∧
      (action = "gentle_hint" ∨ action = "strong_hint")
    then bias + 15/100 else bias
  let bias := if 40 < context.pause_length ∧ action = "strong_hint"
    then bias + 25/100 else bias
  let bias := if 5/10 ≤ context.fail_rate ∧
      (action = "debug_followup" ∨ action = "strong_hint")
    then bias + 2/10 else bias
  let bias := if context.code_cleanliness < 6/10 ∧
      (action = "refactor_followup" ∨ action = "gentle_hint")
    then bias + 18/100 else bias
  let bias := if 35/100 < policy_metrics.time_factor_optimization ∧
      action = "optimization_followup"
    then bias + 12/100 else bias
  let bias := if context.error_type = "edge_case" ∧
      action = "edge_case_followup"
    then bias + 22/100 else bias
  let bias := if 2 ≤ context.hints_used ∧ action = "no_hint"
    then bias + 5/100 else bias
  bias

/-- One appended history record (`session_state["history"].append`),
minus the wall-clock timestamp and the LLM hint payload. -/
structure TickRecord where
  context : Context
  action : String
  reward : ℚ
  scores : List (String × ℚ)
  weights : Option (List ℚ)
  featureVector : List ℚ
deriving DecidableEq

/-- One entry of `bandit_sessions`: the per-interview bandit state. -/
structure BanditSession where
  candidateId : String
  problemId : String
  language : String
  difficulty : String
  created_at : ℚ
  expires_at : ℚ
  weight_vectors : List (String × List ℚ)
  policy_metrics : PolicyMetrics
  reward_baseline : ℚ
  history : List TickRecord
  last_context : Option Context
deriving DecidableEq

/-- Embedding of the `start_rl_session` body: the fresh session stored under the new
id, with deep-copied default weights and metrics, 1800s expiry, reward
baseline 0.3, empty history and no previous context. -/
def initial_session (candidateId problemId language difficulty : String)
    (now : ℚ) : BanditSession :=
  { candidateId := candidateId,
    problemId := problemId,
    language := language,
    difficulty := difficulty,
    created_at := now,
    expires_at := now + 1800,
    weight_vectors := DEFAULT_ACTION_WEIGHTS,
    policy_metrics := DEFAULT_POLICY_METRICS,
    reward_baseline := 3/10,
    history := [],
    last_context := none }

/-- Dot product `sum(w_i * x_i for w_i, x_i in zip(w, feature_vec))`. -/
def listDot (w x : List ℚ) : ℚ :=
  (List.zipWith (· * ·) w x).sum

/-- Python `max(scores, key=scores.get)` over a dict in insertion
order: the first key attaining the maximal value (later entries win
only on strictly greater values). -/
def argmaxFirst : List (String × ℚ) → String
  | [] => ""
  | p :: t => (t.foldl (fun best q => if best.2 < q.2 then q else best) p).1

/-- Embedding of `select_bandit_action`: epsilon-greedy selection.  The process-wide
random source is made explicit: `explore` is the outcome of
`random.random() < epsilon` and `randIdx` the index drawn by
`random.choice(ACTION_SPACE)`. -/
def select_bandit_action (session_state : BanditSession)
    (context : Context) (feature_vec : List ℚ)
    (explore : Bool) (randIdx : Fin 7) : String × List (String × ℚ) :=
  let scores := ACTION_SPACE.map (fun action =>
    (action,
     listDot (dictGetD session_state.weight_vectors action
                (List.replicate FEATURE_NAMES.length 0)) feature_vec
       + action_bias action context session_state.policy_metrics))
  let chosen :=
    if explore then ACTION_SPACE.getD randIdx.val ""
    else argmaxFirst scores
  (chosen, scores)

/-- Embedding of `compute_reward`: 0.0 on cold start (no previous context),
otherwise a weighted sum of correctness change, cleanliness change and
information gain, rounded to 3 decimals. -/
def compute_reward (context : Context) (prev_context : Option Context) : ℚ :=
  match prev_context with
  | none => 0
  | some prev =>
      let correctness_change := prev.fail_rate - context.fail_rate
      let quality_change := context.code_cleanliness - prev.code_cleanliness
      let info_gain : ℚ :=
        min ((max (context.total_changes - prev.total_changes) 0 : ℤ) / 10) 1
      roundTo 3 (5/10 * correctness_change + 3/10 * quality_change
        + 2/10 * info_gain)

/-- Embedding of `update_bandit_weights`: gradient step `w_i += 0.1 * (reward -
baseline) * x_i` (rounded to 6 decimals) on the chosen action's vector
only, then baseline drift `baseline = 0.9 * baseline + 0.1 * reward`
(rounded to 4 decimals).  The `reward_baseline` key is always present
in a stored session, so `session_state.get("reward_baseline", 0.3)` is
the field itself. -/
def update_bandit_weights (session_state : BanditSession) (action : String)
    (reward : ℚ) (feature_vec : List ℚ) : BanditSession :=
  let lr : ℚ := 1/10
  let baseline := session_state.reward_baseline
  let delta := reward - baseline
  let w := dictGetD session_state.weight_vectors action
    (List.replicate FEATURE_NAMES.length 0)
  let updated := List.zipWith
    (fun w_i x_i => roundTo 6 (w_i + lr * delta * x_i)) w feature_vec
  { session_state with
      weight_vectors := dictSet session_state.weight_vectors action updated,
      reward_baseline := roundTo 4 (baseline * (9/10) + reward * (1/10)) }

/-- Embedding of `update_policy_metrics`: each facet gets its own clamped update,
then every facet gets `+ reward * 0.05` rounded to 3 decimals — with
no re-clamp after the reinforcement. -/
def update_policy_metrics (metrics : PolicyMetrics) (context : Context)
    (reward : ℚ) : PolicyMetrics :=
  let debugging :=
    max 0 (min 1 (metrics.debugging + context.fail_rate * (2/10)))
  let refactor :=
    max 0 (min 1 (metrics.refactor + (7/10 - context.code_cleanliness) * (15/100)))
  let time_factor_optimization :=
    max 0 (min 1 (metrics.time_factor_optimization + context.pause_length / 300))
  let edge_case_resilience :=
    max 0 (min 1 (metrics.edge_case_resilience +
      (if context.error_type = "edge_case" then 2/10 else 0)))
  { debugging := roundTo 3 (debugging + reward * (5/100)),
    refactor := roundTo 3 (refactor + reward * (5/100)),
    time_factor_optimization :=
      roundTo 3 (time_factor_optimization + reward * (5/100)),
    edge_case_resilience :=
      roundTo 3 (edge_case_resilience + reward * (5/100)) }

/-- Embedding of `schedule_next_evaluation`: advisory delay in milliseconds until
the next tick, assigned sequentially (later conditions overwrite
earlier ones). -/
def schedule_next_evaluation (context : Context) (action : String) : ℤ :=
  let base_ms : ℤ := 20000
  let base_ms := if action = "strong_hint" ∨ action = "follow_debug"
    then 12000 else base_ms
  let base_ms := if 45 < context.pause_length then 8000 else base_ms
  let base_ms := if context.fail_rate = 0 ∧ 8/10 < context.code_cleanliness
    then 30000 else base_ms
  base_ms

/-- Failure modes of one `/session/step` request: the explicit 404 for
an unknown session id, and the unhandled `re.error` escaping from
`analyze_code_cleanliness` (surfaced by the HTTP layer as a 500). -/
inductive StepError where
  | notFound
  | regexError
deriving DecidableEq

/-- The deterministic fields of the `/session/step` response.  The LLM
hint payload and the rationale string are presentation content from an
external collaborator and are not modelled. -/
structure StepResponse where
  sessionId : String
  action : String
  contextFeatures : Context
  policyMetrics : PolicyMetrics
  rewardApplied : ℚ
  scores : List (String × ℚ)
  nextEvaluationMs : ℤ
  sessionExpired : Bool
deriving DecidableEq

/-- Embedding of `rl_session_step`: one online bandit tick.  `bandit_sessions` is
passed (and returned updated) explicitly; `explore`/`randIdx` expose
the process-wide random source and `now` the wall clock
(`time.time()`).  Raises 404 when the session id is absent; otherwise
builds the context (which raises for non-empty code, see
`analyze_code_cleanliness`), selects an action, computes the reward,
updates weights and metrics, stores the context and history, and
responds with the expiry flag `time.time() > expires_at`. -/
def rl_session_step (sessions : List (String × BanditSession))
    (step : RLSessionStepRequest) (explore : Bool) (randIdx : Fin 7)
    (now : ℚ) :
    Except StepError (StepResponse × List (String × BanditSession)) :=
  match dictLookup sessions step.sessionId with
  | none => .error .notFound
  | some session_state =>
    match build_context_features step session_state.difficulty with
    | .error _ => .error .regexError
    | .ok context =>
      let prev_context := session_state.last_context
      let feature_vec := feature_vector_from_context context
      let sel := select_bandit_action session_state context feature_vec
        explore randIdx
      let action := sel.1
      let scores := sel.2
      let reward := compute_reward context prev_context
      let st1 := update_bandit_weights session_state action reward feature_vec
      let policy_metrics := update_policy_metrics st1.policy_metrics
        context reward
      let st2 := { st1 with
        policy_metrics := policy_metrics,
        last_context := some context,
        history := st1.history ++
          [{ context := context, action := action, reward := reward,
             scores := scores,
             weights := dictLookup st1.weight_vectors action,
             featureVector := feature_vec }] }
      let next_eval_ms := schedule_next_evaluation context action
      let expired : Bool := session_state.expires_at < now
      .ok ({ sessionId := step.sessionId,
             action := action,
             contextFeatures := context,
             policyMetrics := policy_metrics,
             rewardApplied := reward,
             scores := scores,
             nextEvaluationMs := next_eval_ms,
             sessionExpired := expired },
           dictSet sessions step.sessionId st2)

/-! ## Claim theorems -/

/-- C1: the claim describes `analyze_code_cleanliness` as total — score
1.0 minus the long-line / TODO / tab-mix / debug-print penalties,
floored at 0, and 0.0 for empty code.  The code disagrees: its
debug-print regex `r"print\\s*\\("` does not compile (unterminated
group), so for every non-empty code string the function raises
`re.error` instead of returning a score; only the empty-code branch
behaves as claimed. -/
theorem analyze_code_cleanliness_raises_on_nonempty_code :
    analyze_code_cleanliness ("print(42)") = .error .invalidPattern ∧
    analyze_code_cleanliness ("x = 1") = .error .invalidPattern ∧
    analyze_code_cleanliness ("") =
      .ok { score := 0, notes := ["No code provided"] } := by
  refine ⟨rfl, rfl, rfl⟩

/-- Scalar fact: clamping before or after a positive rescale agrees,
`min (max y 0 / 10) 1 = max 0 (min 1 (y / 10))`. -/
theorem min_max_div_ten (y : ℚ) :
    min (max y 0 / 10) 1 = max 0 (min 1 (y / 10)) := by
  simp only [min_def, max_def]
  split_ifs <;> linarith

/-- C5: `compute_reward` returns exactly 0 with no previous context,
and otherwise rounds `0.5*(prev.fail_rate - curr.fail_rate) +
0.3*(curr.cleanliness - prev.cleanliness) +
0.2*clamp((curr.total_changes - prev.total_changes)/10, 0, 1)` to
3 decimals. -/
theorem compute_reward_formula :
    (∀ context : Context, compute_reward context none = 0) ∧
    (∀ context prev : Context,
      compute_reward context (some prev) =
        roundTo 3 (5/10 * (prev.fail_rate - context.fail_rate)
          + 3/10 * (context.code_cleanliness - prev.code_cleanliness)
          + 2/10 * max 0 (min 1
              (((context.total_changes - prev.total_changes : ℤ) : ℚ) / 10)))) := by
  constructor
  · intro context
    rfl
  · intro context prev
    have hcast : ((max (context.total_changes - prev.total_changes) 0 : ℤ) : ℚ)
        = max ((context.total_changes - prev.total_changes : ℤ) : ℚ) 0 := by
      push_cast
      rfl
    simp only [compute_reward]
    rw [hcast, min_max_div_ten]

/-- C6 counterexample: the claim covers every pause value including
negative ones, but `normalize_pause` has no lower clamp, so a pause of
-60 seconds normalizes to -1, outside of the unit interval. -/
theorem normalize_pause_negative_escapes_unit_interval :
    ¬ (0 ≤ normalize_pause (-60) ∧ normalize_pause (-60) ≤ 1) := by
  have hval : normalize_pause (-60) = -1 := by
    norm_num [normalize_pause, roundTo, roundHalfEven, min_def]
  rw [hval]
  norm_num

/-- C6 amended: for every non-negative pause duration the normalized
pause `round(min(pause/60, 1.0), 3)` lies in [0, 1] (60s stall
ceiling); negative raw pauses pass through un-clamped below. -/
theorem normalize_pause_unit_interval (pause_seconds : ℚ)
    (hp : 0 ≤ pause_seconds) :
    0 ≤ normalize_pause pause_seconds ∧ normalize_pause pause_seconds ≤ 1 := by
  unfold normalize_pause
  have ha : ((0 : ℤ) : ℚ) ≤ min (pause_seconds / 60) 1 * 10 ^ 3 := by
    have h0 : (0 : ℚ) ≤ min (pause_seconds / 60) 1 :=
      le_min (by positivity) (by norm_num)
    push_cast
    nlinarith
  have hb : min (pause_seconds / 60) 1 * 10 ^ 3 ≤ ((1000 : ℤ) : ℚ) := by
    have h1 : min (pause_seconds / 60) 1 ≤ 1 := min_le_right _ _
    push_cast
    nlinarith
  have := roundTo_bounds 3 (min (pause_seconds / 60) 1) 0 1000 ha hb
  constructor
  · have := this.1
    norm_num at this
    exact this
  · have := this.2
    norm_num at this
    exact this

/-- C6 witness: the amended bound evaluated at a 30-second pause. -/
theorem normalize_pause_unit_interval_witness :
    0 ≤ normalize_pause 30 ∧ normalize_pause 30 ≤ 1 :=
  normalize_pause_unit_interval 30 (by norm_num)

/-- A context in the "healthy" state (no failures, clean code) that is
also stalled for more than 45 seconds. -/
def healthyStallContext : Context :=
  { pause_length := 50, code_cleanliness := 9/10,
    code_cleanliness_notes := [], fail_rate := 0, error_type := "none",
    difficulty := "medium", hints_used := 0, total_changes := 0 }

/-- C8 counterexample: the claim promises 8000ms for every context with
pause_length > 45, but the healthy-state rule is applied after the
stall rule and overwrites it: a context with pause 50, zero failure
rate and cleanliness 0.9 schedules 30000ms. -/
theorem schedule_stall_overridden_by_healthy :
    45 < healthyStallContext.pause_length ∧
    schedule_next_evaluation healthyStallContext ("no_hint") = 30000 ∧
    schedule_next_evaluation healthyStallContext ("no_hint") ≠ 8000 := by
  have hval : schedule_next_evaluation healthyStallContext ("no_hint") = 30000 := by
    norm_num [schedule_next_evaluation, healthyStallContext]
  refine ⟨by norm_num [healthyStallContext], hval, by rw [hval]; norm_num⟩

/-- C8 amended: the four scheduling rules are assigned sequentially,
so later rules override earlier ones: 30000ms whenever failure rate is
0 and cleanliness > 0.8 (even when stalled); otherwise 8000ms when
pause > 45s; otherwise 12000ms for the strong interventions (the code
tests the literal set {strong_hint, follow_debug}); otherwise the
20000ms base. -/
theorem schedule_next_evaluation_rule_order (context : Context)
    (action : String) :
    (context.fail_rate = 0 ∧ 8/10 < context.code_cleanliness →
      schedule_next_evaluation context action = 30000) ∧
    (¬(context.fail_rate = 0 ∧ 8/10 < context.code_cleanliness) →
      45 < context.pause_length →
      schedule_next_evaluation context action = 8000) ∧
    (¬(context.fail_rate = 0 ∧ 8/10 < context.code_cleanliness) →
      ¬ 45 < context.pause_length →
      (action = "strong_hint" ∨ action = "follow_debug") →
      schedule_next_evaluation context action = 12000) ∧
    (¬(context.fail_rate = 0 ∧ 8/10 < context.code_cleanliness) →
      ¬ 45 < context.pause_length →
      ¬(action = "strong_hint" ∨ action = "follow_debug") →
      schedule_next_evaluation context action = 20000) := by
  refine ⟨fun h1 => ?_, fun h1 h2 => ?_, fun h1 h2 h3 => ?_, fun h1 h2 h3 => ?_⟩
  · simp only [schedule_next_evaluation]
    rw [if_pos h1]
  · simp only [schedule_next_evaluation]
    rw [if_neg h1, if_pos h2]
  · simp only [schedule_next_evaluation]
    rw [if_neg h1, if_neg h2, if_pos h3]
  · simp only [schedule_next_evaluation]
    rw [if_neg h1, if_neg h2, if_neg h3]

/-- A stalled context that is failing (so the healthy rule cannot
override the stall rule). -/
def failingStallContext : Context :=
  { pause_length := 50, code_cleanliness := 2/10,
    code_cleanliness_notes := [], fail_rate := 1, error_type := "runtime",
    difficulty := "medium", hints_used := 0, total_changes := 0 }

/-- C8 witness: a stalled, failing context schedules 8000ms, per the
amended precedence. -/
theorem schedule_next_evaluation_rule_order_witness :
    schedule_next_evaluation failingStallContext ("no_hint") = 8000 :=
  (schedule_next_evaluation_rule_order failingStallContext "no_hint").2.1
    (by norm_num [failingStallContext]) (by norm_num [failingStallContext])

/-- A previous-tick context with maximal failure and minimal
cleanliness. -/
def maxRewardPrevContext : Context :=
  { pause_length := 0, code_cleanliness := 0, code_cleanliness_notes := [],
    fail_rate := 1, error_type := "none", difficulty := "medium",
    hints_used := 0, total_changes := 0 }

/-- A current-tick context with no failures, perfect cleanliness and
ten new changes: together with `maxRewardPrevContext` it realizes the
calculator's maximal reward 1.0. -/
def maxRewardCurrContext : Context :=
  { pause_length := 0, code_cleanliness := 1, code_cleanliness_notes := [],
    fail_rate := 0, error_type := "none", difficulty := "medium",
    hints_used := 0, total_changes := 10 }

/-- The reward the calculator produces on that transition. -/
def rewardOne : ℚ := compute_reward maxRewardCurrContext (some maxRewardPrevContext)

/-- A policy-metrics state with every facet at the top of [0,1]. -/
def saturatedMetrics : PolicyMetrics :=
  { debugging := 1, refactor := 1, time_factor_optimization := 1,
    edge_case_resilience := 1 }

theorem rewardOne_eq_one : rewardOne = 1 := by
  norm_num [rewardOne, compute_reward, maxRewardCurrContext,
    maxRewardPrevContext, roundTo, roundHalfEven, min_def, max_def]

/-- C2 counterexample: with the debugging facet at 1.0 (inside [0,1])
and a reward of 1.0 produced by the reward calculator, one
`update_policy_metrics` call leaves debugging at 1.05 — the
`+= reward * 0.05` reinforcement happens after the clamp and is never
re-clamped. -/
theorem update_policy_metrics_exceeds_one :
    (update_policy_metrics saturatedMetrics maxRewardCurrContext rewardOne).debugging
        = 21/20 ∧
    ¬ (update_policy_metrics saturatedMetrics maxRewardCurrContext rewardOne).debugging
        ≤ 1 := by
  have hval : (update_policy_metrics saturatedMetrics maxRewardCurrContext
      rewardOne).debugging = 21/20 := by
    rw [rewardOne_eq_one]
    norm_num [update_policy_metrics, saturatedMetrics, maxRewardCurrContext,
      roundTo, roundHalfEven, min_def, max_def]
  refine ⟨hval, by rw [hval]; norm_num⟩

/-- The clamp `max(0.0, min(1.0, v))` lands in [0,1]. -/
theorem clamp01_mem (v : ℚ) : 0 ≤ max 0 (min 1 v) ∧ max 0 (min 1 v) ≤ 1 :=
  ⟨le_max_left _ _, max_le (by norm_num) (min_le_left _ _)⟩

/-- Range of `compute_reward` over contexts with fail rate and
cleanliness in [0,1]: the rounded weighted sum lies in [-0.8, 1]. -/
theorem compute_reward_range (context prev : Context)
    (h1 : 0 ≤ context.fail_rate) (h2 : context.fail_rate ≤ 1)
    (h3 : 0 ≤ context.code_cleanliness) (h4 : context.code_cleanliness ≤ 1)
    (h5 : 0 ≤ prev.fail_rate) (h6 : prev.fail_rate ≤ 1)
    (h7 : 0 ≤ prev.code_cleanliness) (h8 : prev.code_cleanliness ≤ 1) :
    -(4/5) ≤ compute_reward context (some prev) ∧
    compute_reward context (some prev) ≤ 1 := by
  simp only [compute_reward]
  set info : ℚ :=
    min ((max (context.total_changes - prev.total_changes) 0 : ℤ) / 10) 1
    with hinfo
  have hi0 : 0 ≤ info := by
    rw [hinfo]
    apply le_min _ (by norm_num)
    have : (0:ℚ) ≤ ((max (context.total_changes - prev.total_changes) 0 : ℤ) : ℚ) := by
      exact_mod_cast le_max_right _ _
    linarith
  have hi1 : info ≤ 1 := min_le_right _ _
  have ha : ((-800 : ℤ) : ℚ) ≤
      (5/10 * (prev.fail_rate - context.fail_rate)
        + 3/10 * (context.code_cleanliness - prev.code_cleanliness)
        + 2/10 * info) * 10 ^ 3 := by
    push_cast
    nlinarith
  have hb : (5/10 * (prev.fail_rate - context.fail_rate)
        + 3/10 * (context.code_cleanliness - prev.code_cleanliness)
        + 2/10 * info) * 10 ^ 3 ≤ ((1000 : ℤ) : ℚ) := by
    push_cast
    nlinarith
  have := roundTo_bounds 3 _ (-800) 1000 ha hb
  constructor
  · have hl := this.1
    norm_num at hl ⊢
    linarith
  · have hr := this.2
    norm_num at hr ⊢
    linarith

/-- Range of one clamped facet after the un-re-clamped reward
reinforcement. -/
theorem reinforce_range (f r : ℚ) (hf0 : 0 ≤ f) (hf1 : f ≤ 1)
    (hr0 : -(4/5) ≤ r) (hr1 : r ≤ 1) :
    -(1/25) ≤ roundTo 3 (f + r * (5/100)) ∧
    roundTo 3 (f + r * (5/100)) ≤ 21/20 := by
  have ha : ((-40 : ℤ) : ℚ) ≤ (f + r * (5/100)) * 10 ^ 3 := by
    push_cast
    nlinarith
  have hb : (f + r * (5/100)) * 10 ^ 3 ≤ ((1050 : ℤ) : ℚ) := by
    push_cast
    nlinarith
  have := roundTo_bounds 3 _ (-40) 1050 ha hb
  constructor
  · have hl := this.1
    norm_num at hl ⊢
    linarith
  · have hr := this.2
    norm_num at hr ⊢
    linarith

/-- C2 amended: the facet-specific updates are clamped to [0,1], but
the subsequent `+= reward * 0.05` reinforcement is applied with no
re-clamp (only rounding to 3 decimals), so after one
`update_policy_metrics` call — for any starting metrics and context,
and any reward the calculator can produce from contexts with fail rate
and cleanliness in [0,1] — each facet lies in [-0.04, 1.05] rather
than [0,1]. -/
theorem update_policy_metrics_range (metrics : PolicyMetrics)
    (context curr prev : Context)
    (h1 : 0 ≤ curr.fail_rate) (h2 : curr.fail_rate ≤ 1)
    (h3 : 0 ≤ curr.code_cleanliness) (h4 : curr.code_cleanliness ≤ 1)
    (h5 : 0 ≤ prev.fail_rate) (h6 : prev.fail_rate ≤ 1)
    (h7 : 0 ≤ prev.code_cleanliness) (h8 : prev.code_cleanliness ≤ 1) :
    (-(1/25) ≤ (update_policy_metrics metrics context
        (compute_reward curr (some prev))).debugging ∧
      (update_policy_metrics metrics context
        (compute_reward curr (some prev))).debugging ≤ 21/20) ∧
    (-(1/25) ≤ (update_policy_metrics metrics context
        (compute_reward curr (some prev))).refactor ∧
      (update_policy_metrics metrics context
        (compute_reward curr (some prev))).refactor ≤ 21/20) ∧
    (-(1/25) ≤ (update_policy_metrics metrics context
        (compute_reward curr (some prev))).time_factor_optimization ∧
      (update_policy_metrics metrics context
        (compute_reward curr (some prev))).time_factor_optimization ≤ 21/20) ∧
    (-(1/25) ≤ (update_policy_metrics metrics context
        (compute_reward curr (some prev))).edge_case_resilience ∧
      (update_policy_metrics metrics context
        (compute_reward curr (some prev))).edge_case_resilience ≤ 21/20) := by
  obtain ⟨hr0, hr1⟩ :=
    compute_reward_range curr prev h1 h2 h3 h4 h5 h6 h7 h8
  simp only [update_policy_metrics]
  refine ⟨?_, ?_, ?_, ?_⟩ <;>
    exact reinforce_range _ _ (clamp01_mem _).1 (clamp01_mem _).2 hr0 hr1

/-- C2 witness: the amended range evaluated at the default metrics and
the maximal-reward transition. -/
theorem update_policy_metrics_range_witness :
    (-(1/25) ≤ (update_policy_metrics DEFAULT_POLICY_METRICS maxRewardCurrContext
        (compute_reward maxRewardCurrContext (some maxRewardPrevContext))).debugging ∧
      (update_policy_metrics DEFAULT_POLICY_METRICS maxRewardCurrContext
        (compute_reward maxRewardCurrContext (some maxRewardPrevContext))).debugging ≤ 21/20) ∧
    (-(1/25) ≤ (update_policy_metrics DEFAULT_POLICY_METRICS maxRewardCurrContext
        (compute_reward maxRewardCurrContext (some maxRewardPrevContext))).refactor ∧
      (update_policy_metrics DEFAULT_POLICY_METRICS maxRewardCurrContext
        (compute_reward maxRewardCurrContext (some maxRewardPrevContext))).refactor ≤ 21/20) ∧
    (-(1/25) ≤ (update_policy_metrics DEFAULT_POLICY_METRICS maxRewardCurrContext
        (compute_reward maxRewardCurrContext (some maxRewardPrevContext))).time_factor_optimization ∧
      (update_policy_metrics DEFAULT_POLICY_METRICS maxRewardCurrContext
        (compute_reward maxRewardCurrContext (some maxRewardPrevContext))).time_factor_optimization ≤ 21/20) ∧
    (-(1/25) ≤ (update_policy_metrics DEFAULT_POLICY_METRICS maxRewardCurrContext
        (compute_reward maxRewardCurrContext (some maxRewardPrevContext))).edge_case_resilience ∧
      (update_policy_metrics DEFAULT_POLICY_METRICS maxRewardCurrContext
        (compute_reward maxRewardCurrContext (some maxRewardPrevContext))).edge_case_resilience ≤ 21/20) :=
  update_policy_metrics_range DEFAULT_POLICY_METRICS maxRewardCurrContext
    maxRewardCurrContext maxRewardPrevContext
    (by norm_num [maxRewardCurrContext]) (by norm_num [maxRewardCurrContext])
    (by norm_num [maxRewardCurrContext]) (by norm_num [maxRewardCurrContext])
    (by norm_num [maxRewardPrevContext]) (by norm_num [maxRewardPrevContext])
    (by norm_num [maxRewardPrevContext]) (by norm_num [maxRewardPrevContext])

/-- C3: one `update_bandit_weights` call for an action leaves every
other action's weight vector bit-for-bit unchanged — only the chosen
action's entry of the weight dict is written. -/
theorem update_bandit_weights_frame (session_state : BanditSession)
    (action other : String) (reward : ℚ) (feature_vec : List ℚ)
    (h : other ≠ action) :
    dictLookup (update_bandit_weights session_state action reward
        feature_vec).weight_vectors other
      = dictLookup session_state.weight_vectors other := by
  simp only [update_bandit_weights]
  exact dictLookup_dictSet_ne _ _ _ _ h

/-- C3 witness: after updating `no_hint` on a fresh session, the
`strong_hint` weights are untouched. -/
theorem update_bandit_weights_frame_witness :
    dictLookup (update_bandit_weights
        (initial_session ("c") ("p") ("python") ("medium") 0)
        ("no_hint") 0 []).weight_vectors ("strong_hint")
      = dictLookup (initial_session ("c") ("p") ("python") ("medium")
          0).weight_vectors ("strong_hint") :=
  update_bandit_weights_frame _ _ _ _ _ (by decide)

/-- C4: `update_bandit_weights` sets each component of the chosen
action's vector to `round(w_i + 0.1 * (reward - baseline) * x_i, 6)`
and drifts the baseline to `round(0.9 * baseline + 0.1 * reward, 4)`
(an exponential moving average, not an overwrite). -/
theorem update_bandit_weights_gradient (session_state : BanditSession)
    (action : String) (reward : ℚ) (feature_vec : List ℚ) :
    dictLookup (update_bandit_weights session_state action reward
        feature_vec).weight_vectors action
      = some (List.zipWith
          (fun w_i x_i =>
            roundTo 6 (w_i + (1/10) * (reward - session_state.reward_baseline) * x_i))
          (dictGetD session_state.weight_vectors action
            (List.replicate FEATURE_NAMES.length 0))
          feature_vec) ∧
    (update_bandit_weights session_state action reward
        feature_vec).reward_baseline
      = roundTo 4 ((9/10) * session_state.reward_baseline + (1/10) * reward) := by
  constructor
  · simp only [update_bandit_weights]
    exact dictLookup_dictSet_self _ _ _
  · simp only [update_bandit_weights]
    congr 1
    ring

/-- No name in the seven-action space starts with the literal prefix
the over-hinting rule tests for. -/
theorem action_space_hint_rule_never_fires :
    ∀ action ∈ ACTION_SPACE,
      pyStartswith action.toList (("hint").toList) = false := by
  decide

/-- C7: when `hints_used ≥ 2`, the bias adds 0.05 toward `no_hint` and
subtracts 0.05 from any action whose name starts with `"hint"`; since
no action in the fixed seven-action space begins with that prefix
(`gentle_hint`/`strong_hint` end with it), the subtraction branch never
changes the returned bias — for every action in the space, the bias
coincides with the bias computed without that branch, and the full
`no_hint` bias is exactly `0.05` when `hints_used ≥ 2` and `0`
otherwise. -/
theorem action_bias_hint_penalty_noop :
    (∀ action ∈ ACTION_SPACE,
      pyStartswith action.toList (("hint").toList) = false) ∧
    (∀ action ∈ ACTION_SPACE, ∀ (context : Context)
        (policy_metrics : PolicyMetrics),
      action_bias action context policy_metrics
        = action_bias_no_hint_penalty action context policy_metrics) ∧
    (∀ (context : Context) (policy_metrics : PolicyMetrics),
      action_bias ("no_hint") context policy_metrics
        = if 2 ≤ context.hints_used then 5/100 else 0) := by
  have key : ∀ (action : String) (context : Context)
      (policy_metrics : PolicyMetrics),
      pyStartswith action.toList (("hint").toList) = false →
      action_bias action context policy_metrics
        = action_bias_no_hint_penalty action context policy_metrics := by
    intro action context policy_metrics h
    simp only [action_bias, action_bias_no_hint_penalty, h]
    simp
  refine ⟨action_space_hint_rule_never_fires, ?_, ?_⟩
  · intro action ha context policy_metrics
    exact key action context policy_metrics (action_space_hint_rule_never_fires action ha)
  · intro context policy_metrics
    have hstarts : pyStartswith (("no_hint").toList) (("hint").toList) = false := by
      decide
    simp only [action_bias, hstarts]
    simp

/-- C7 witness: the no-op instantiated at `gentle_hint` (the action the
rule was presumably aimed at) and a hint-heavy context. -/
theorem action_bias_hint_penalty_noop_witness :
    action_bias ("gentle_hint")
        { failingStallContext with hints_used := 3 } DEFAULT_POLICY_METRICS
      = action_bias_no_hint_penalty ("gentle_hint")
        { failingStallContext with hints_used := 3 } DEFAULT_POLICY_METRICS :=
  action_bias_hint_penalty_noop.2.1 ("gentle_hint") (by decide)
    { failingStallContext with hints_used := 3 } DEFAULT_POLICY_METRICS

/-- A demonstration session store holding one freshly started session. -/
def demoStore : List (String × BanditSession) :=
  [("rlsess_demo", initial_session ("cand-1") ("two-sum") ("python") ("medium") 0)]

/-- A step request for that session carrying one line of code. -/
def demoStepRequest : RLSessionStepRequest :=
  { sessionId := "rlsess_demo", code := "x = 1", pauseDuration := 5,
    totalChanges := 0, executionAttempts := [], hintsUsed := 0 }

/-- C9: a step with an unknown session id fails with the 404 not-found
error, as claimed; but a step on an existing session does not always
proceed to an action — for any non-empty code the cleanliness regex
raises and the request dies with an unhandled `re.error` (HTTP 500)
instead of returning an action and the expiry flag. -/
theorem rl_session_step_crashes_on_nonempty_code :
    rl_session_step [] demoStepRequest false 0 0 = .error .notFound ∧
    rl_session_step demoStore demoStepRequest false 0 0 = .error .regexError := by
  exact ⟨rfl, rfl⟩

theorem den_one_of_eq_int (q : ℚ) (m : ℤ) (h : q = (m : ℚ)) : q.den = 1 := by
  rw [h]
  exact Rat.den_intCast m

/-- On a cold-start tick (reward 0, baseline 0.3) the 6-decimal
rounding in the gradient step is exact whenever the weight has at most
2 and the feature at most 3 decimal digits. -/
theorem roundTo6_first_step_exact (w_i x_i : ℚ)
    (hw : (w_i * 100).den = 1) (hx : (x_i * 1000).den = 1) :
    roundTo 6 (w_i + (1/10) * (0 - 3/10) * x_i) = w_i - 3/100 * x_i := by
  have h1 : w_i + (1/10) * (0 - 3/10) * x_i = w_i - 3/100 * x_i := by ring
  rw [h1]
  apply roundTo_eq_self
  have ha : ((w_i * 100).num : ℚ) = w_i * 100 := (Rat.den_eq_one_iff _).mp hw
  have hb : ((x_i * 1000).num : ℚ) = x_i * 1000 := (Rat.den_eq_one_iff _).mp hx
  have h2 : (w_i - 3/100 * x_i) * 10 ^ 6
      = (((w_i * 100).num * 10 ^ 4 - (x_i * 1000).num * 30 : ℤ) : ℚ) := by
    push_cast [ha, hb]
    ring
  rw [h2]
  exact Rat.den_intCast _

theorem zipWith_first_step (w x : List ℚ)
    (hw : ∀ w_i ∈ w, (w_i * 100).den = 1)
    (hx : ∀ x_i ∈ x, (x_i * 1000).den = 1) :
    List.zipWith (fun w_i x_i => roundTo 6 (w_i + (1/10) * (0 - 3/10) * x_i)) w x
      = List.zipWith (fun w_i x_i => w_i - 3/100 * x_i) w x := by
  induction w generalizing x with
  | nil => simp
  | cons wh wt ih =>
      cases x with
      | nil => simp
      | cons xh xt =>
          simp only [List.zipWith_cons_cons]
          rw [roundTo6_first_step_exact wh xh (hw wh (by simp)) (hx xh (by simp)),
            ih xt (fun w_i hm => hw w_i (List.mem_cons_of_mem _ hm))
              (fun x_i hm => hx x_i (List.mem_cons_of_mem _ hm))]

/-- Every default weight component has at most two decimal digits. -/
theorem default_weights_den (action : String) (ha : action ∈ ACTION_SPACE) :
    ∀ w_i ∈ dictGetD DEFAULT_ACTION_WEIGHTS action
        (List.replicate FEATURE_NAMES.length 0),
      (w_i * 100).den = 1 := by
  simp only [ACTION_SPACE, List.mem_cons, List.not_mem_nil, or_false] at ha
  rcases ha with rfl | rfl | rfl | rfl | rfl | rfl | rfl <;>
    intro w_i hm <;>
    rw [List.eq_of_mem_replicate hm] <;>
    norm_num [Rat.den_ofNat]

/-- C10: a freshly started session has reward baseline 0.3 (not 0);
the first step's reward is the cold-start 0.0 (no previous context),
so the chosen action's weight update uses delta 0 - 0.3 and each
component decreases by exactly `0.03 * feature[i]` — for any feature
vector with non-negative components of at most 3 decimal digits (as
`feature_vector_from_context` produces), the 6-decimal rounding is
exact. -/
theorem first_step_weight_decrease
    (candidateId problemId language difficulty : String) (now : ℚ)
    (context : Context) (action : String) (ha : action ∈ ACTION_SPACE)
    (feature_vec : List ℚ)
    (hx : ∀ x_i ∈ feature_vec, 0 ≤ x_i ∧ (x_i * 1000).den = 1) :
    (initial_session candidateId problemId language difficulty
        now).reward_baseline = 3/10 ∧
    compute_reward context none = 0 ∧
    dictLookup (update_bandit_weights
        (initial_session candidateId problemId language difficulty now)
        action 0 feature_vec).weight_vectors action
      = some (List.zipWith (fun w_i x_i => w_i - 3/100 * x_i)
          (dictGetD (initial_session candidateId problemId language difficulty
              now).weight_vectors action
            (List.replicate FEATURE_NAMES.length 0))
          feature_vec) := by
  refine ⟨rfl, rfl, ?_⟩
  simp only [update_bandit_weights]
  rw [dictLookup_dictSet_self]
  congr 1
  exact zipWith_first_step _ _ (default_weights_den action ha)
    (fun x_i hm => (hx x_i hm).2)

/-- A feature vector of the shape `feature_vector_from_context`
produces (3-decimal, non-negative entries). -/
def demoFeatureVec : List ℚ := [5/10, 1, 0, 0, 2/10, 0, 0, 0, 0]

/-- C10 witness: the first-step decrease evaluated on a fresh session,
the `no_hint` action and a concrete feature vector. -/
theorem first_step_weight_decrease_witness :
    (initial_session ("c") ("p") ("python") ("easy") 0).reward_baseline = 3/10 ∧
    compute_reward healthyStallContext none = 0 ∧
    dictLookup (update_bandit_weights
        (initial_session ("c") ("p") ("python") ("easy") 0)
        ("no_hint") 0 demoFeatureVec).weight_vectors ("no_hint")
      = some (List.zipWith (fun w_i x_i => w_i - 3/100 * x_i)
          (dictGetD (initial_session ("c") ("p") ("python")
              ("easy") 0).weight_vectors ("no_hint")
            (List.replicate FEATURE_NAMES.length 0))
          demoFeatureVec) :=
  first_step_weight_decrease ("c") ("p") ("python") ("easy") 0
    healthyStallContext ("no_hint") (by decide) demoFeatureVec (by
      intro x_i hm
      simp only [demoFeatureVec] at hm
      fin_cases hm <;> exact ⟨by norm_num, by norm_num [Rat.den_ofNat]⟩)

end Sentinel
